import Mathlib

namespace ScreeningBot

/-! Shallow embedding of the children-language-screening LINE bot (src/app.py).
    The adaptive test-administration state machine (handle_message), the age
    calculator (calculate_age), the item-bank lookup (get_questions_by_age) and
    the scoring tables are translated directly from the Python source.  The
    DeepSeek classifier is an external collaborator: its raw (stripped) reply
    string is an input to every step, as is the hint-generation reply. -/

/-- One screening item: a parsed row of the Google-Sheets item bank, as built
    by get_questions_by_age (組別 / 題號 / 題目 / 類別 / 提示 / 通過標準). -/
structure Question where
  group : Int
  number : String
  text : String
  qtype : String
  hint : String
  passCriteria : String
deriving DecidableEq

def defaultQuestion : Question := ⟨0, "", "", "", "", ""⟩

instance : Inhabited Question := ⟨defaultQuestion⟩

/-- The per-user session dictionary that handle_message builds when a valid
    birth date is accepted, and mutates in the three testing modes. -/
structure TestState where
  totalMonths : Int
  questions : List Question
  currentIndex : Nat
  scoreAllCurrent : Nat
  scoreAll : Nat
  scoreR : Nat
  scoreE : Nat
  originalGroup : Int
  group : Int
  minAgeInGroup : Int
  rightQuestions : List String
  wrongQuestions : List String
deriving DecidableEq

/-- The user_states entry for one caller: the mode string plus, in the three
    testing modes, the session record.  `crashed` models an uncaught Python
    exception escaping handle_message (the handler produces no reply). -/
inductive UserState where
  | mainMenu
  | aging
  | tips
  | treatment
  | first (st : TestState)
  | forward (st : TestState)
  | backward (st : TestState)
  | crashed
deriving DecidableEq

/-- One invocation's effect: the stored user state afterwards, the outgoing
    messages in order, and the composite score when a final report is emitted. -/
structure StepOutput where
  state : UserState
  messages : List String
  finalScore : Option Int
deriving DecidableEq

/-- Python str.startswith on character lists. -/
def startsWithChars : List Char → List Char → Bool
  | _, [] => true
  | [], _ :: _ => false
  | c :: cs, p :: ps => c == p && startsWithChars cs ps

/-- Python str.startswith, applied to the stripped DeepSeek reply. -/
def pyStartswith (s p : String) : Bool := startsWithChars s.data p.data

/-- The four-way branch every testing mode performs on deepseek_response. -/
inductive Judgment where
  | pass
  | fail
  | unclear
  | unknown
deriving DecidableEq

/-- deepseek_response.startswith dispatch: 符合 / 不符合 / 不清楚 / else-branch. -/
def classifyResponse (resp : String) : Judgment :=
  if pyStartswith resp "符合" then .pass
  else if pyStartswith resp "不符合" then .fail
  else if pyStartswith resp "不清楚" then .unclear
  else .unknown

/-- get_min_age_for_group: minimum qualifying age per group; the Python dict
    lookup yields None off 1..9, modelled as -1 (matched by no age window). -/
def getMinAgeForGroup : Int → Int
  | 1 => 0
  | 2 => 5
  | 3 => 9
  | 4 => 13
  | 5 => 17
  | 6 => 21
  | 7 => 25
  | 8 => 29
  | 9 => 33
  | _ => -1

/-- get_group_all_score: cumulative composite score of groups 1..g; the Python
    dict lookup yields None off 1..9, modelled as 0 (never consulted there). -/
def getGroupAllScore : Int → Int
  | 1 => 5
  | 2 => 10
  | 3 => 15
  | 4 => 20
  | 5 => 26
  | 6 => 32
  | 7 => 38
  | 8 => 44
  | 9 => 50
  | _ => 0

/- Outgoing message texts, verbatim from src/app.py. -/

def waitMsg : String := "已收到回覆，請等待AI回應，等待過程中請勿再發送訊息。"

def nextItemAck : String := "了解，現在進入下一題。\n\n"

def questionLabel : String := "題目："

def promptSuffix : String := "\n\n輸入「返回」可中途退出篩檢。"

def unclearSuffixFirst : String := "\n請再次回應問題。"

def unclearSuffixLater : String := "\n請再回覆一次。"

def unknownMsgFirst : String := "程式出現錯誤無法判斷回應，請聯絡負責人。"

def unknownMsgLater : String := "❌無法判斷回應，請再試一次。"

def backToMenuMsg : String := "已返回主選單。\n\n若想重新進行兒童語言篩檢，請輸入「篩檢」。"

def noNewGroupMsg : String := "找不到新題組，系統出現錯誤。返回主選單。"

def noQuestionsMsg : String := "無法找到適合此年齡的篩檢題目，請確認 Google Sheets 設定是否正確。\n\n輸入「返回」回到主選單。"

def invalidFormatMsg : String := "請提供孩子的「西元」出生年月日（格式：YYYY-MM-DD），並且「-」不可省略，例如 2020-08-15。\n\n輸入「返回」回到主選單。"

def overAgeMsg : String := "本篩檢僅適用於三歲以下兒童，若您的孩子月齡超過36個月，建議聯絡語言治療師進行進一步評估。\n\n輸入「返回」回到主選單。"

def scoreReportMsg (score : Int) : String := "篩檢結束，總分為" ++ toString score ++ "分。"

/-- The reason buckets chat_with_deepseek distinguishes when every retry has
    failed (auth/invalid key, network/timeout, rate limit, other). -/
inductive ApiErrorKind where
  | auth
  | network
  | rate
  | other
deriving DecidableEq

/-- The degraded return value of chat_with_deepseek after its retries (2 extra
    attempts, 1 s apart) are exhausted, by error bucket; instead of raising,
    the function returns one of these four apology strings. -/
def chatFallbackMessage : ApiErrorKind → String
  | .auth => "系統暫時無法處理您的回應，請稍後再試。"
  | .network => "系統回應緩慢，請稍後再試。"
  | .rate => "系統暫時繁忙，請稍後再試。"
  | .other => "系統處理您的回應時出現問題，請稍後再試。"

/-- The 符合 branch of the first-group mode: score_all += 1, append the item
    number to right_questions, advance current_index, then bump the R / E /
    both sub-scores according to the item type.  (首組 does not touch
    score_all_current.) -/
def scoreFirstPass (st : TestState) (q : Question) : TestState :=
  let st1 := { st with scoreAll := st.scoreAll + 1,
                       rightQuestions := st.rightQuestions ++ [q.number],
                       currentIndex := st.currentIndex + 1 }
  if q.qtype = "R" then { st1 with scoreR := st1.scoreR + 1 }
  else if q.qtype = "E" then { st1 with scoreE := st1.scoreE + 1 }
  else { st1 with scoreR := st1.scoreR + 1, scoreE := st1.scoreE + 1 }

/-- The 符合 branch of the forward / backward modes: additionally bumps the
    per-group counter score_all_current. -/
def scoreLaterPass (st : TestState) (q : Question) : TestState :=
  let st1 := { st with scoreAllCurrent := st.scoreAllCurrent + 1,
                       scoreAll := st.scoreAll + 1,
                       rightQuestions := st.rightQuestions ++ [q.number],
                       currentIndex := st.currentIndex + 1 }
  if q.qtype = "R" then { st1 with scoreR := st1.scoreR + 1 }
  else if q.qtype = "E" then { st1 with scoreE := st1.scoreE + 1 }
  else { st1 with scoreR := st1.scoreR + 1, scoreE := st1.scoreE + 1 }

/-- The 不符合 branch (all modes): append the item number to wrong_questions
    and advance current_index; no score changes. -/
def scoreFail (st : TestState) (q : Question) : TestState :=
  { st with currentIndex := st.currentIndex + 1,
            wrongQuestions := st.wrongQuestions ++ [q.number] }

/-- Group-completion decision of the 首組篩檢 mode, after the answer has been
    scored (st is the post-answer state, currentGroup = int(questions[0][組別])).
    pass_percentage == 1.0 iff score_all equals the group size. -/
def firstComplete (bank : Int → List Question) (st : TestState) (currentGroup : Int) :
    StepOutput :=
  if st.scoreAll = st.questions.length then
    if currentGroup < 9 then
      match bank (currentGroup + 1) with
      | [] =>
          { state := .crashed, messages := [waitMsg], finalScore := none }
      | q :: qs =>
          { state := .forward { st with group := currentGroup + 1,
                                        minAgeInGroup := getMinAgeForGroup (currentGroup + 1),
                                        questions := q :: qs,
                                        currentIndex := 0,
                                        scoreAll := 0, scoreR := 0, scoreE := 0 },
            messages := [waitMsg, questionLabel ++ q.text ++ promptSuffix],
            finalScore := none }
    else
      { state := .mainMenu,
        messages := [waitMsg, scoreReportMsg ((st.scoreAll : Int) + 44)],
        finalScore := some ((st.scoreAll : Int) + 44) }
  else if st.scoreAll < st.questions.length then
    if currentGroup > 1 then
      match bank (currentGroup - 1) with
      | [] =>
          { state := .crashed, messages := [waitMsg], finalScore := none }
      | q :: qs =>
          { state := .backward { st with group := currentGroup - 1,
                                         minAgeInGroup := getMinAgeForGroup (currentGroup - 1),
                                         questions := q :: qs,
                                         currentIndex := 0,
                                         scoreR := 0, scoreE := 0 },
            messages := [waitMsg, questionLabel ++ q.text ++ promptSuffix],
            finalScore := none }
    else
      { state := .mainMenu,
        messages := [waitMsg, scoreReportMsg (st.scoreAll : Int)],
        finalScore := some (st.scoreAll : Int) }
  else
    { state := .first st, messages := [waitMsg], finalScore := none }

/-- Group-completion decision of the 順向施測 mode (st is the post-answer
    state).  Perfect pass below group 9 advances one group (with the
    new-questions truthiness check); anything else finalizes with
    get_group_all_score(original_group) + score_all. -/
def forwardComplete (bank : Int → List Question) (st : TestState) (currentGroup : Int) :
    StepOutput :=
  if st.scoreAllCurrent = st.questions.length ∧ currentGroup < 9 then
    match bank (currentGroup + 1) with
    | [] =>
        { state := .mainMenu, messages := [waitMsg, noNewGroupMsg], finalScore := none }
    | q :: qs =>
        { state := .forward { st with group := currentGroup + 1,
                                      minAgeInGroup := getMinAgeForGroup (currentGroup + 1),
                                      questions := q :: qs,
                                      currentIndex := 0,
                                      scoreAllCurrent := 0 },
          messages := [waitMsg, questionLabel ++ q.text ++ promptSuffix],
          finalScore := none }
  else
    { state := .mainMenu,
      messages := [waitMsg, scoreReportMsg (getGroupAllScore st.originalGroup + (st.scoreAll : Int))],
      finalScore := some (getGroupAllScore st.originalGroup + (st.scoreAll : Int)) }

/-- Group-completion decision of the 逆向施測 mode (st is the post-answer
    state).  An imperfect pass above group 1 retreats one group; otherwise the
    walk terminates: above group 1 the composite is
    get_group_all_score(current_group - 1) + score_all, at group 1 it is
    score_all alone. -/
def backwardComplete (bank : Int → List Question) (st : TestState) (currentGroup : Int) :
    StepOutput :=
  if st.scoreAllCurrent < st.questions.length ∧ currentGroup > 1 then
    match bank (currentGroup - 1) with
    | [] =>
        { state := .mainMenu, messages := [waitMsg, noNewGroupMsg], finalScore := none }
    | q :: qs =>
        { state := .backward { st with group := currentGroup - 1,
                                       minAgeInGroup := getMinAgeForGroup (currentGroup - 1),
                                       questions := q :: qs,
                                       currentIndex := 0,
                                       scoreAllCurrent := 0 },
          messages := [waitMsg, questionLabel ++ q.text ++ promptSuffix],
          finalScore := none }
  else if currentGroup > 1 then
    { state := .mainMenu,
      messages := [waitMsg, scoreReportMsg (getGroupAllScore (currentGroup - 1) + (st.scoreAll : Int))],
      finalScore := some (getGroupAllScore (currentGroup - 1) + (st.scoreAll : Int)) }
  else
    { state := .mainMenu,
      messages := [waitMsg, scoreReportMsg (st.scoreAll : Int)],
      finalScore := some (st.scoreAll : Int) }

/-- One 首組篩檢 answer: fetch questions[current_index] (IndexError crashes),
    classify, score or hint, then either prompt the next item or run the
    group-completion decision. -/
def firstStep (bank : Int → List Question) (st : TestState) (classResp hintResp : String) :
    StepOutput :=
  match st.questions[st.currentIndex]? with
  | none => { state := .crashed, messages := [waitMsg], finalScore := none }
  | some currentQuestion =>
    let currentGroup := (st.questions.headD defaultQuestion).group
    match classifyResponse classResp with
    | .pass =>
        let st' := scoreFirstPass st currentQuestion
        if st'.currentIndex < st'.questions.length then
          { state := .first st',
            messages := [waitMsg, nextItemAck ++ questionLabel ++
              (st'.questions.getD st'.currentIndex defaultQuestion).text ++ promptSuffix],
            finalScore := none }
        else firstComplete bank st' currentGroup
    | .fail =>
        let st' := scoreFail st currentQuestion
        if st'.currentIndex < st'.questions.length then
          { state := .first st',
            messages := [waitMsg, nextItemAck ++ questionLabel ++
              (st'.questions.getD st'.currentIndex defaultQuestion).text ++ promptSuffix],
            finalScore := none }
        else firstComplete bank st' currentGroup
    | .unclear =>
        { state := .first st, messages := [waitMsg, hintResp ++ unclearSuffixFirst],
          finalScore := none }
    | .unknown =>
        { state := .first st, messages := [waitMsg, unknownMsgFirst], finalScore := none }

/-- One 順向施測 answer. -/
def forwardStep (bank : Int → List Question) (st : TestState) (classResp hintResp : String) :
    StepOutput :=
  match st.questions[st.currentIndex]? with
  | none => { state := .crashed, messages := [waitMsg], finalScore := none }
  | some currentQuestion =>
    let currentGroup := (st.questions.headD defaultQuestion).group
    match classifyResponse classResp with
    | .pass =>
        let st' := scoreLaterPass st currentQuestion
        if st'.currentIndex < st'.questions.length then
          { state := .forward st',
            messages := [waitMsg, nextItemAck ++ questionLabel ++
              (st'.questions.getD st'.currentIndex defaultQuestion).text ++ promptSuffix],
            finalScore := none }
        else forwardComplete bank st' currentGroup
    | .fail =>
        let st' := scoreFail st currentQuestion
        if st'.currentIndex < st'.questions.length then
          { state := .forward st',
            messages := [waitMsg, nextItemAck ++ questionLabel ++
              (st'.questions.getD st'.currentIndex defaultQuestion).text ++ promptSuffix],
            finalScore := none }
        else forwardComplete bank st' currentGroup
    | .unclear =>
        { state := .forward st, messages := [waitMsg, hintResp ++ unclearSuffixLater],
          finalScore := none }
    | .unknown =>
        { state := .forward st, messages := [waitMsg, unknownMsgLater], finalScore := none }

/-- One 逆向施測 answer. -/
def backwardStep (bank : Int → List Question) (st : TestState) (classResp hintResp : String) :
    StepOutput :=
  match st.questions[st.currentIndex]? with
  | none => { state := .crashed, messages := [waitMsg], finalScore := none }
  | some currentQuestion =>
    let currentGroup := (st.questions.headD defaultQuestion).group
    match classifyResponse classResp with
    | .pass =>
        let st' := scoreLaterPass st currentQuestion
        if st'.currentIndex < st'.questions.length then
          { state := .backward st',
            messages := [waitMsg, nextItemAck ++ questionLabel ++
              (st'.questions.getD st'.currentIndex defaultQuestion).text ++ promptSuffix],
            finalScore := none }
        else backwardComplete bank st' currentGroup
    | .fail =>
        let st' := scoreFail st currentQuestion
        if st'.currentIndex < st'.questions.length then
          { state := .backward st',
            messages := [waitMsg, nextItemAck ++ questionLabel ++
              (st'.questions.getD st'.currentIndex defaultQuestion).text ++ promptSuffix],
            finalScore := none }
        else backwardComplete bank st' currentGroup
    | .unclear =>
        { state := .backward st, messages := [waitMsg, hintResp ++ unclearSuffixLater],
          finalScore := none }
    | .unknown =>
        { state := .backward st, messages := [waitMsg, unknownMsgLater], finalScore := none }

/-- The external inputs of one handle_message invocation while testing: the
    caregiver's message, the classifier's (stripped) reply and the
    hint-generation reply. -/
structure Inputs where
  userMsg : String
  classResp : String
  hintResp : String
deriving DecidableEq

/-- handle_message restricted to the testing dialogue: the global 返回 check
    first, then dispatch on the mode.  `bank g` abstracts
    get_questions_by_age(get_min_age_for_group(g)) with None as []. -/
def handleTesting (bank : Int → List Question) (s : UserState) (inp : Inputs) : StepOutput :=
  if inp.userMsg = "返回" then
    { state := .mainMenu, messages := [backToMenuMsg], finalScore := none }
  else
    match s with
    | .first st => firstStep bank st inp.classResp inp.hintResp
    | .forward st => forwardStep bank st inp.classResp inp.hintResp
    | .backward st => backwardStep bank st inp.classResp inp.hintResp
    | s => { state := s, messages := [], finalScore := none }

/-- The outputs of a sequence of invocations, in order. -/
def runOutputs (bank : Int → List Question) (s : UserState) : List Inputs → List StepOutput
  | [] => []
  | i :: rest =>
      let out := handleTesting bank s i
      out :: runOutputs bank out.state rest

/-- Number of items passed while the session is in the 逆向施測 mode: the
    backward walk's own accumulation, as the spec describes it. -/
def backwardPassCount (bank : Int → List Question) : UserState → List Inputs → Nat
  | _, [] => 0
  | s, i :: rest =>
      (match s with
       | .backward _ =>
           if i.userMsg ≠ "返回" ∧ classifyResponse i.classResp = Judgment.pass then 1 else 0
       | _ => 0) + backwardPassCount bank (handleTesting bank s i).state rest

/-- States reachable from s by any sequence of invocations. -/
inductive Reachable (bank : Int → List Question) : UserState → UserState → Prop
  | refl (s : UserState) : Reachable bank s s
  | tail (s t : UserState) (i : Inputs) (h : Reachable bank s t) :
      Reachable bank s (handleTesting bank t i).state

/-- Every group the adaptive walk can request has at least one item. -/
def goodBank (bank : Int → List Question) : Prop := ∀ g, bank g ≠ []

/-- In a testing mode, the cursor is inside the question list, so the fetch
    questions[current_index] performed at the start of answer processing is in
    range. -/
def IndexInRange : UserState → Prop
  | .first st => st.currentIndex < st.questions.length
  | .forward st => st.currentIndex < st.questions.length
  | .backward st => st.currentIndex < st.questions.length
  | _ => True

/-- In 首組篩檢, score_all counts passes of the current group only, so it is
    bounded by the cursor (rules out pass ratios above 1). -/
def FirstScoreBound : UserState → Prop
  | .first st => st.scoreAll ≤ st.currentIndex
  | _ => True

/-- The inductive invariant of the testing dialogue. -/
def TestInv (s : UserState) : Prop := IndexInRange s ∧ FirstScoreBound s

/- ## Item-bank lookup (get_questions_by_age) -/

/-- Decimal value of a digit run. -/
def natFromDigits (cs : List Char) : Nat :=
  cs.foldl (fun a c => 10 * a + (c.toNat - 48)) 0

/-- Python int(str): an optional sign followed by decimal digits; None models
    the ValueError raised on any other content. -/
def pyInt? (s : String) : Option Int :=
  match s.data with
  | [] => none
  | '-' :: rest =>
      if rest ≠ [] ∧ rest.all (fun c => c.isDigit) then some (-(natFromDigits rest : Int))
      else none
  | cs =>
      if cs.all (fun c => c.isDigit) then some ((natFromDigits cs : Nat) : Int) else none

/-- Maximal runs of consecutive digits, as re.findall with a digit-run pattern
    produces them. -/
def splitDigitRuns : List Char → List (List Char)
  | [] => []
  | c :: cs =>
      if c.isDigit then
        match cs, splitDigitRuns cs with
        | c2 :: _, r :: rs => if c2.isDigit then (c :: r) :: rs else [c] :: (r :: rs)
        | _, rest => [c] :: rest
      else splitDigitRuns cs

/-- All embedded integers of the age-range cell, in order. -/
def digitRuns (s : String) : List Int :=
  (splitDigitRuns s.data).map (fun r => ((natFromDigits r : Nat) : Int))

/-- Processing of one sheet row inside the loop of get_questions_by_age.
    Cells are read in the source's order (row[1], row[0], int(row[0]),
    row[2]..row[6]); a missing cell or non-numeric group cell raises
    (IndexError / ValueError), modelled as `.error ()`, which the
    function-level try/except turns into a None result for the whole lookup.
    A row whose age range does not contain exactly two embedded integers is
    skipped (`.ok none`); a contained target age appends the item. -/
def parseSheetRow (months : Int) (row : List String) : Except Unit (Option Question) :=
  match row[1]? with
  | none => .error ()
  | some ageRange =>
    match row[0]? with
    | none => .error ()
    | some groupCell =>
      match pyInt? groupCell with
      | none => .error ()
      | some groupNumber =>
        match row[2]?, row[3]?, row[4]?, row[5]?, row[6]? with
        | some qnum, some qtext, some qtype, some hintCell, some crit =>
            match digitRuns ageRange with
            | [minAge, maxAge] =>
                if minAge ≤ months ∧ months ≤ maxAge then
                  .ok (some ⟨groupNumber, qnum, qtext, qtype, hintCell, crit⟩)
                else .ok none
            | _ => .ok none
        | _, _, _, _, _ => .error ()

/-- The loop of get_questions_by_age over the data rows, stopping at the first
    raising row. -/
def collectRows (months : Int) : List (List String) → Except Unit (List Question)
  | [] => .ok []
  | row :: rest =>
      match parseSheetRow months row with
      | .error e => .error e
      | .ok none => collectRows months rest
      | .ok (some q) =>
          match collectRows months rest with
          | .error e => .error e
          | .ok qs => .ok (q :: qs)

/-- get_questions_by_age: skip the header row, collect matching rows; any
    exception inside the loop is caught at function level and yields None, and
    an empty result is also returned as None. -/
def getQuestionsByAge (sheet : List (List String)) (months : Int) : Option (List Question) :=
  match collectRows months sheet.tail with
  | .error _ => none
  | .ok qs => if qs.isEmpty then none else some qs

/-- Follows the spec's words (§4.2): skip exactly the malformed rows and keep
    every well-formed item whose window contains the target age, in bank
    order.  Used to compare the source's behaviour against the claimed one. -/
def specSkipLookup (sheet : List (List String)) (months : Int) : List Question :=
  sheet.tail.filterMap (fun row =>
    match parseSheetRow months row with
    | .ok (some q) => some q
    | _ => none)

/-- A data row the loop body can process without raising: at least the seven
    consulted cells and a numeric group cell. -/
def wellFormedRow (row : List String) : Prop :=
  7 ≤ row.length ∧ (pyInt? (row.headD "")).isSome

/-- The engine's group-indexed bank: get_questions_by_age at the group's
    minimum age, with None flattened to []. -/
def bankOf (sheet : List (List String)) (g : Int) : List Question :=
  (getQuestionsByAge sheet (getMinAgeForGroup g)).getD []

/- ## Age calculator (calculate_age) -/

/-- A calendar date, as produced by datetime.strptime with format
    YYYY-MM-DD. -/
structure Date where
  year : Int
  month : Nat
  day : Nat
deriving DecidableEq

/-- Gregorian leap-year rule (datetime's calendar). -/
def isLeap (y : Int) : Bool := (y % 4 == 0 && y % 100 != 0) || y % 400 == 0

/-- Length of a month of the proleptic Gregorian calendar. -/
def daysInMonth (y : Int) (m : Nat) : Nat :=
  match m with
  | 1 => 31
  | 2 => if isLeap y then 29 else 28
  | 3 => 31
  | 4 => 30
  | 5 => 31
  | 6 => 30
  | 7 => 31
  | 8 => 31
  | 9 => 30
  | 10 => 31
  | 11 => 30
  | 12 => 31
  | _ => 0

/-- today.replace(day=1) - timedelta(days=1), i.e. the number of days of the
    month preceding `today`'s month. -/
def prevMonthLen (t : Date) : Nat :=
  if t.month = 1 then 31 else daysInMonth t.year (t.month - 1)

/-- A date datetime accepts. -/
def Date.Valid (d : Date) : Prop :=
  1 ≤ d.month ∧ d.month ≤ 12 ∧ 1 ≤ d.day ∧ d.day ≤ daysInMonth d.year d.month

/-- Calendar order on dates. -/
def dateLE (a b : Date) : Prop :=
  a.year < b.year ∨
    (a.year = b.year ∧ (a.month < b.month ∨ (a.month = b.month ∧ a.day ≤ b.day)))

/-- The following calendar day. -/
def nextDay (t : Date) : Date :=
  if t.day < daysInMonth t.year t.month then ⟨t.year, t.month, t.day + 1⟩
  else if t.month < 12 then ⟨t.year, t.month + 1, 1⟩
  else ⟨t.year + 1, 1, 1⟩

/-- calculate_age on an already-parsed birth date, with the reference date
    (datetime.today()) made explicit: naive year/month/day differences, a
    day borrow against the length of the month preceding today, a month
    borrow, and the 30-elapsed-days round-up. -/
def calculate_age (birthdate today : Date) : Int :=
  let years0 : Int := today.year - birthdate.year
  let months0 : Int := (today.month : Int) - (birthdate.month : Int)
  let days0 : Int := (today.day : Int) - (birthdate.day : Int)
  let months1 : Int := if days0 < 0 then months0 - 1 else months0
  let days1 : Int := if days0 < 0 then days0 + (prevMonthLen today : Int) else days0
  let years1 : Int := if months1 < 0 then years0 - 1 else years0
  let months2 : Int := if months1 < 0 then months1 + 12 else months1
  let totalMonths := years1 * 12 + months2
  if 30 ≤ days1 then totalMonths + 1 else totalMonths

/- ## Age-collection phase (篩檢模式) -/

/-- What the birth-date regex / strptime produced from the caregiver's
    message: no match of the date pattern, a match that strptime rejects
    (the uncaught ValueError of line 273), or a parsed date. -/
inductive ParsedInput where
  | noMatch
  | invalidDate
  | valid (d : Date)
deriving DecidableEq

/-- The screening-instructions message sent on entry (interpolating the
    computed month count). -/
def screeningIntroMsg (totalMonths : Int) : String :=
  "您的孩子目前 " ++ toString totalMonths ++ " 個月大，請詳閱以下篩檢注意事項。"

/-- The MODE_AGING branch of handle_message: an unmatched message re-prompts;
    a matched but invalid date raises out of the handler; otherwise the age is
    computed, ages above 36 redirect to the main menu, and the item bank is
    consulted - a nonempty result enters 首組篩檢, an empty one emits the
    no-coverage message and resets to the main menu. -/
def agingStep (sheet : List (List String)) (today : Date) (inp : ParsedInput) :
    UserState × List String :=
  match inp with
  | .noMatch => (.aging, [invalidFormatMsg])
  | .invalidDate => (.crashed, [])
  | .valid birth =>
      let totalMonths := calculate_age birth today
      if totalMonths > 36 then (.mainMenu, [overAgeMsg])
      else
        match getQuestionsByAge sheet totalMonths with
        | some (q :: qs) =>
            (.first { totalMonths := totalMonths,
                      questions := q :: qs,
                      currentIndex := 0,
                      scoreAllCurrent := 0,
                      scoreAll := 0, scoreR := 0, scoreE := 0,
                      originalGroup := q.group,
                      group := q.group,
                      minAgeInGroup := getMinAgeForGroup q.group,
                      rightQuestions := [], wrongQuestions := [] },
             [screeningIntroMsg totalMonths, questionLabel ++ q.text ++ promptSuffix])
        | _ => (.mainMenu, [noQuestionsMsg])

/- ## Concrete fixtures used by witnesses and counterexamples -/

/-- A receptive-typed sample item of group g. -/
def sQR (g : Int) (n : String) : Question := ⟨g, n, "題" ++ n, "R", "提示", "標準"⟩

/-- A small total bank: one item in group 1, two in group 2, one elsewhere. -/
def sampleBank : Int → List Question :=
  fun g => if g = 1 then [sQR 1 "1"] else if g = 2 then [sQR 2 "2", sQR 2 "3"] else [sQR g "0"]

/-- A freshly-entered 首組篩檢 session at group 2. -/
def sampleFirst : TestState :=
  { totalMonths := 6, questions := sampleBank 2, currentIndex := 0,
    scoreAllCurrent := 0, scoreAll := 0, scoreR := 0, scoreE := 0,
    originalGroup := 2, group := 2, minAgeInGroup := 5,
    rightQuestions := [], wrongQuestions := [] }

/-- A freshly-entered 首組篩檢 session at group 1. -/
def sampleFirstG1 : TestState :=
  { totalMonths := 2, questions := sampleBank 1, currentIndex := 0,
    scoreAllCurrent := 0, scoreAll := 0, scoreR := 0, scoreE := 0,
    originalGroup := 1, group := 1, minAgeInGroup := 0,
    rightQuestions := [], wrongQuestions := [] }

/-- Pass the group-2 item 2, miss item 3, then pass the single group-1 item. -/
def sampleScript : List Inputs :=
  [⟨"可以", "符合", ""⟩, ⟨"不行", "不符合", ""⟩, ⟨"可以", "符合", ""⟩]

/-- The session the code stores right after the 首組→逆向 transition of
    sampleScript: score_r and score_e zeroed, score_all still 1. -/
def sampleBackwardEntry : TestState :=
  { totalMonths := 6, questions := [sQR 1 "1"], currentIndex := 0,
    scoreAllCurrent := 0, scoreAll := 1, scoreR := 0, scoreE := 0,
    originalGroup := 2, group := 1, minAgeInGroup := 0,
    rightQuestions := ["2"], wrongQuestions := ["3"] }

/-- The session the code stores right after a perfect group-1 首組 pass: all
    three cumulative scores zeroed on the 首組→順向 transition. -/
def sampleForwardEntry : TestState :=
  { totalMonths := 2, questions := sampleBank 2, currentIndex := 0,
    scoreAllCurrent := 0, scoreAll := 0, scoreR := 0, scoreE := 0,
    originalGroup := 1, group := 2, minAgeInGroup := 5,
    rightQuestions := ["1"], wrongQuestions := [] }

/-- The group-2 first-group session one answered-and-passed item in, about to
    answer the group's final item. -/
def sampleFirstMid : TestState :=
  { totalMonths := 6, questions := sampleBank 2, currentIndex := 1,
    scoreAllCurrent := 0, scoreAll := 1, scoreR := 1, scoreE := 0,
    originalGroup := 2, group := 2, minAgeInGroup := 5,
    rightQuestions := ["2"], wrongQuestions := [] }

/-- A sheet with the header plus one well-formed group-1 row. -/
def sampleSheetGood : List (List String) :=
  [["組別", "年齡", "題號", "題目", "類別", "提示", "通過標準"],
   ["1", "0-4個月", "1", "題目一", "R", "提示一", "標準一"]]

/-- The same sheet plus one malformed (two-cell) row. -/
def sampleSheetBad : List (List String) :=
  [["組別", "年齡", "題號", "題目", "類別", "提示", "通過標準"],
   ["1", "0-4個月", "1", "題目一", "R", "提示一", "標準一"],
   ["1", "0-4"]]

/-- The item of sampleSheetGood's data row. -/
def sampleSheetItem : Question := ⟨1, "1", "題目一", "R", "提示一", "標準一"⟩

/-- The session created on entry from sampleSheetGood at one month of age. -/
def sampleEntryState : TestState :=
  { totalMonths := 1, questions := [sampleSheetItem], currentIndex := 0,
    scoreAllCurrent := 0, scoreAll := 0, scoreR := 0, scoreE := 0,
    originalGroup := 1, group := 1, minAgeInGroup := 0,
    rightQuestions := [], wrongQuestions := [] }

/-- A 逆向施測 session at group 1 with one item left. -/
def sampleBackwardG1 : TestState :=
  { totalMonths := 6, questions := [sQR 1 "1"], currentIndex := 0,
    scoreAllCurrent := 0, scoreAll := 1, scoreR := 0, scoreE := 0,
    originalGroup := 2, group := 1, minAgeInGroup := 0,
    rightQuestions := ["2"], wrongQuestions := ["3"] }

/- ## Helper lemmas -/

theorem startsWithChars_append (p r : List Char) : startsWithChars (p ++ r) p = true := by
  induction p with
  | nil => simp [startsWithChars]
  | cons c cs ih => simp [startsWithChars, ih]

/-- A string that does not begin with pre differs from every pre ++ r. -/
theorem startMismatch_append_ne (pre m : String) (hne : startsWithChars m.data pre.data = false)
    (r : String) : pre ++ r ≠ m := by
  intro heq
  have hd : pre.data ++ r.data = m.data := congrArg String.data heq
  have ht : startsWithChars m.data pre.data = true := by
    rw [← hd]; exact startsWithChars_append _ _
  simp [ht] at hne

/-- A string that does not end with suf differs from every h ++ suf. -/
theorem endMismatch_append_ne (suf m : String)
    (hne : startsWithChars m.data.reverse suf.data.reverse = false)
    (h : String) : h ++ suf ≠ m := by
  intro heq
  have hd : h.data ++ suf.data = m.data := congrArg String.data heq
  have ht : startsWithChars m.data.reverse suf.data.reverse = true := by
    rw [← hd, List.reverse_append]
    exact startsWithChars_append _ _
  simp [ht] at hne

/-- Each exhausted-retry fallback string of chat_with_deepseek falls into the
    else-branch of the response dispatch. -/
theorem classify_fallback (e : ApiErrorKind) :
    classifyResponse (chatFallbackMessage e) = Judgment.unknown := by
  cases e <;> rfl

/-- Field-level description of the 首組 pass update. -/
theorem scoreFirstPass_eq (st : TestState) (q : Question) :
    scoreFirstPass st q =
      { st with scoreAll := st.scoreAll + 1,
                rightQuestions := st.rightQuestions ++ [q.number],
                currentIndex := st.currentIndex + 1,
                scoreR := if q.qtype = "R" then st.scoreR + 1
                          else if q.qtype = "E" then st.scoreR else st.scoreR + 1,
                scoreE := if q.qtype = "R" then st.scoreE
                          else if q.qtype = "E" then st.scoreE + 1 else st.scoreE + 1 } := by
  simp only [scoreFirstPass]
  split_ifs <;> rfl

/-- Field-level description of the 順向/逆向 pass update. -/
theorem scoreLaterPass_eq (st : TestState) (q : Question) :
    scoreLaterPass st q =
      { st with scoreAllCurrent := st.scoreAllCurrent + 1,
                scoreAll := st.scoreAll + 1,
                rightQuestions := st.rightQuestions ++ [q.number],
                currentIndex := st.currentIndex + 1,
                scoreR := if q.qtype = "R" then st.scoreR + 1
                          else if q.qtype = "E" then st.scoreR else st.scoreR + 1,
                scoreE := if q.qtype = "R" then st.scoreE
                          else if q.qtype = "E" then st.scoreE + 1 else st.scoreE + 1 } := by
  simp only [scoreLaterPass]
  split_ifs <;> rfl

/-- An Unclear classification leaves any testing-mode state untouched and
    replies with the hint plus the mode's re-prompt suffix. -/
theorem handleTesting_unclear (bank : Int → List Question) (s : UserState) (i : Inputs)
    (htest : (∃ st, s = .first st) ∨ (∃ st, s = .forward st) ∨ (∃ st, s = .backward st))
    (hidx : IndexInRange s) (hm : i.userMsg ≠ "返回")
    (hc : classifyResponse i.classResp = Judgment.unclear) :
    (handleTesting bank s i).state = s ∧ (handleTesting bank s i).finalScore = none ∧
      ∃ suf, (suf = unclearSuffixFirst ∨ suf = unclearSuffixLater) ∧
        (handleTesting bank s i).messages = [waitMsg, i.hintResp ++ suf] := by
  rcases htest with ⟨st, rfl⟩ | ⟨st, rfl⟩ | ⟨st, rfl⟩ <;>
    simp only [IndexInRange] at hidx <;>
    simp only [handleTesting, if_neg hm, firstStep, forwardStep, backwardStep,
      List.getElem?_eq_getElem hidx, hc]
  · exact ⟨trivial, trivial, unclearSuffixFirst, Or.inl rfl, rfl⟩
  · exact ⟨trivial, trivial, unclearSuffixLater, Or.inr rfl, rfl⟩
  · exact ⟨trivial, trivial, unclearSuffixLater, Or.inr rfl, rfl⟩

/-- An unmatched (else-branch) classification leaves any testing-mode state
    untouched and replies with the mode's error message. -/
theorem handleTesting_unknown (bank : Int → List Question) (s : UserState) (i : Inputs)
    (htest : (∃ st, s = .first st) ∨ (∃ st, s = .forward st) ∨ (∃ st, s = .backward st))
    (hidx : IndexInRange s) (hm : i.userMsg ≠ "返回")
    (hc : classifyResponse i.classResp = Judgment.unknown) :
    (handleTesting bank s i).state = s ∧ (handleTesting bank s i).finalScore = none ∧
      ∃ m, (m = unknownMsgFirst ∨ m = unknownMsgLater) ∧
        (handleTesting bank s i).messages = [waitMsg, m] := by
  rcases htest with ⟨st, rfl⟩ | ⟨st, rfl⟩ | ⟨st, rfl⟩ <;>
    simp only [IndexInRange] at hidx <;>
    simp only [handleTesting, if_neg hm, firstStep, forwardStep, backwardStep,
      List.getElem?_eq_getElem hidx, hc]
  · exact ⟨trivial, trivial, unknownMsgFirst, Or.inl rfl, rfl⟩
  · exact ⟨trivial, trivial, unknownMsgLater, Or.inr rfl, rfl⟩
  · exact ⟨trivial, trivial, unknownMsgLater, Or.inr rfl, rfl⟩

/- ## Claim theorems -/

/-- C10: when a passed item's type code is any string other than exactly R or
    E, the engine applies the Both behaviour: the pass update of every testing
    mode bumps the receptive sub-score, the expressive sub-score and the total
    score each by exactly 1 in the same step (and the per-group counter in the
    forward/backward modes), and the engine's answer step stores exactly that
    updated session. -/
theorem c10_both_type_scoring (st : TestState) (q : Question)
    (hr : q.qtype ≠ "R") (he : q.qtype ≠ "E") :
    (scoreFirstPass st q).scoreR = st.scoreR + 1 ∧
    (scoreFirstPass st q).scoreE = st.scoreE + 1 ∧
    (scoreFirstPass st q).scoreAll = st.scoreAll + 1 ∧
    (scoreLaterPass st q).scoreR = st.scoreR + 1 ∧
    (scoreLaterPass st q).scoreE = st.scoreE + 1 ∧
    (scoreLaterPass st q).scoreAll = st.scoreAll + 1 ∧
    (scoreLaterPass st q).scoreAllCurrent = st.scoreAllCurrent + 1 ∧
    (∀ (bank : Int → List Question) (resp hintResp : String),
      classifyResponse resp = Judgment.pass →
      st.questions[st.currentIndex]? = some q →
      st.currentIndex + 1 < st.questions.length →
      (firstStep bank st resp hintResp).state = .first (scoreFirstPass st q) ∧
      (forwardStep bank st resp hintResp).state = .forward (scoreLaterPass st q) ∧
      (backwardStep bank st resp hintResp).state = .backward (scoreLaterPass st q)) := by
  refine ⟨?_, ?_, ?_, ?_, ?_, ?_, ?_, ?_⟩
  · simp [scoreFirstPass_eq, hr, he]
  · simp [scoreFirstPass_eq, hr, he]
  · simp [scoreFirstPass_eq]
  · simp [scoreLaterPass_eq, hr, he]
  · simp [scoreLaterPass_eq, hr, he]
  · simp [scoreLaterPass_eq]
  · simp [scoreLaterPass_eq]
  · intro bank resp hintResp hc hq hlt
    have h1 : (scoreFirstPass st q).currentIndex < (scoreFirstPass st q).questions.length := by
      simp [scoreFirstPass_eq]; omega
    have h2 : (scoreLaterPass st q).currentIndex < (scoreLaterPass st q).questions.length := by
      simp [scoreLaterPass_eq]; omega
    refine ⟨?_, ?_, ?_⟩ <;>
      simp only [firstStep, forwardStep, backwardStep, hq, hc, if_pos h1, if_pos h2]

/-- Witness for C10 at a concrete empty-typed item. -/
theorem c10_both_type_scoring_witness :
    (⟨2, "2", "題2", "", "提示", "標準"⟩ : Question).qtype ≠ "R" ∧
    (scoreFirstPass sampleFirst ⟨2, "2", "題2", "", "提示", "標準"⟩).scoreR =
      sampleFirst.scoreR + 1 := by
  refine ⟨by decide, ?_⟩
  exact (c10_both_type_scoring sampleFirst ⟨2, "2", "題2", "", "提示", "標準"⟩
    (by decide) (by decide)).1

/-- C4: for every testing-phase state (cursor in range) and every reply
    classified Unclear, the engine sends a hint and re-prompts the same item:
    the stored session is unchanged - current_index does not advance, no
    score counter and neither ledger is mutated, no final score is emitted -
    and iterating arbitrarily many consecutive Unclear turns still leaves the
    session exactly as it began. -/
theorem c4_unclear_preserves_state (bank : Int → List Question) (s : UserState)
    (htest : (∃ st, s = .first st) ∨ (∃ st, s = .forward st) ∨ (∃ st, s = .backward st))
    (hidx : IndexInRange s) (inps : List Inputs)
    (hinps : ∀ i ∈ inps, i.userMsg ≠ "返回" ∧ classifyResponse i.classResp = Judgment.unclear) :
    (∀ i ∈ inps, (handleTesting bank s i).state = s ∧
        (handleTesting bank s i).finalScore = none ∧
        ∃ suf, (suf = unclearSuffixFirst ∨ suf = unclearSuffixLater) ∧
          (handleTesting bank s i).messages = [waitMsg, i.hintResp ++ suf]) ∧
    inps.foldl (fun t i => (handleTesting bank t i).state) s = s := by
  constructor
  · intro i hi
    exact handleTesting_unclear bank s i htest hidx (hinps i hi).1 (hinps i hi).2
  · induction inps with
    | nil => rfl
    | cons i rest ih =>
        have hstep := handleTesting_unclear bank s i htest hidx
          (hinps i (List.mem_cons_self i rest)).1 (hinps i (List.mem_cons_self i rest)).2
        rw [List.foldl_cons, hstep.1]
        exact ih (fun j hj => hinps j (List.mem_cons_of_mem i hj))

/-- Witness for C4: two consecutive 不清楚 turns on the fresh group-2 session. -/
theorem c4_unclear_preserves_state_witness :
    classifyResponse "不清楚" = Judgment.unclear ∧
    [(⟨"嗯", "不清楚", "提示甲"⟩ : Inputs), ⟨"嗯", "不清楚", "提示乙"⟩].foldl
      (fun t i => (handleTesting sampleBank t i).state) (.first sampleFirst) =
        .first sampleFirst := by
  refine ⟨by decide, ?_⟩
  exact (c4_unclear_preserves_state sampleBank (.first sampleFirst)
    (Or.inl ⟨sampleFirst, rfl⟩) (by simp only [IndexInRange]; decide)
    [⟨"嗯", "不清楚", "提示甲"⟩, ⟨"嗯", "不清楚", "提示乙"⟩]
    (by decide)).2

/-- C5: when chat_with_deepseek exhausts its retries and returns one of its
    four fallback strings, the dispatch lands in the else-branch, never the
    不符合 (Fail) branch: the stored session is exactly as before the call
    (phase, cursor, all scores, both ledgers), no final score is emitted, and
    the reply is an error message that no Pass/Fail acknowledgement and no
    Unclear hint reply can ever equal. -/
theorem c5_unavailable_no_mutation (bank : Int → List Question) (s : UserState)
    (e : ApiErrorKind) (inp : Inputs)
    (htest : (∃ st, s = .first st) ∨ (∃ st, s = .forward st) ∨ (∃ st, s = .backward st))
    (hidx : IndexInRange s) (hm : inp.userMsg ≠ "返回")
    (hresp : inp.classResp = chatFallbackMessage e) :
    (handleTesting bank s inp).state = s ∧
    (handleTesting bank s inp).finalScore = none ∧
    ∃ m, (handleTesting bank s inp).messages = [waitMsg, m] ∧
      (m = unknownMsgFirst ∨ m = unknownMsgLater) ∧
      (∀ r, nextItemAck ++ r ≠ m) ∧
      (∀ h, h ++ unclearSuffixFirst ≠ m) ∧
      (∀ h, h ++ unclearSuffixLater ≠ m) := by
  have hc : classifyResponse inp.classResp = Judgment.unknown := by
    rw [hresp]; exact classify_fallback e
  obtain ⟨h1, h2, m, hm', hmsg⟩ := handleTesting_unknown bank s inp htest hidx hm hc
  refine ⟨h1, h2, m, hmsg, hm', ?_, ?_, ?_⟩ <;> rcases hm' with rfl | rfl
  · exact startMismatch_append_ne _ _ (by decide)
  · exact startMismatch_append_ne _ _ (by decide)
  · exact endMismatch_append_ne _ _ (by decide)
  · exact endMismatch_append_ne _ _ (by decide)
  · exact endMismatch_append_ne _ _ (by decide)
  · exact endMismatch_append_ne _ _ (by decide)

/-- Witness for C5 at the network-timeout fallback string. -/
theorem c5_unavailable_no_mutation_witness :
    (⟨"可以", "系統回應緩慢，請稍後再試。", ""⟩ : Inputs).classResp =
      chatFallbackMessage ApiErrorKind.network ∧
    (handleTesting sampleBank (.first sampleFirst)
      ⟨"可以", "系統回應緩慢，請稍後再試。", ""⟩).state = .first sampleFirst := by
  refine ⟨by decide, ?_⟩
  exact (c5_unavailable_no_mutation sampleBank (.first sampleFirst) ApiErrorKind.network
    ⟨"可以", "系統回應緩慢，請稍後再試。", ""⟩ (Or.inl ⟨sampleFirst, rfl⟩)
    (by simp only [IndexInRange]; decide) (by decide) rfl).1

/-- C2 counterexample: a group-2 first-group session that passes one item and
    misses the other transitions to 逆向施測 with score_all still 1 - the
    cumulative total is NOT reset, so backward accumulation does carry the
    first group's contribution; only score_r and score_e start fresh. -/
theorem c2_counterexample :
    ((runOutputs sampleBank (.first sampleFirst)
        [⟨"可以", "符合", ""⟩, ⟨"不行", "不符合", ""⟩]).map (·.state)).getLast? =
      some (.backward sampleBackwardEntry) ∧
    sampleBackwardEntry.scoreAll = 1 ∧ ¬ sampleBackwardEntry.scoreAll = 0 ∧
    sampleBackwardEntry.scoreR = 0 ∧ sampleBackwardEntry.scoreE = 0 := by decide

/-- C2 amended: on the 首組→逆向 transition (pass ratio below 1, current group
    above 1) the receptive and expressive sub-scores are reset to zero and the
    cursor returns to 0, but the cumulative total score_all is NOT reset: it
    keeps the score earned in the first group, which the backward walk then
    adds to.  (The per-group counter, untouched during 首組, stays as it was.) -/
theorem c2_backward_transition (bank : Int → List Question) (st : TestState)
    (resp hintResp : String) (q q' : Question) (qs' : List Question)
    (hq : st.questions[st.currentIndex]? = some q)
    (hdone : st.currentIndex + 1 = st.questions.length)
    (hj : classifyResponse resp = Judgment.fail ∨ classifyResponse resp = Judgment.pass)
    (hratio : st.scoreAll + (if classifyResponse resp = Judgment.pass then 1 else 0) <
      st.questions.length)
    (hgroup : (st.questions.headD defaultQuestion).group > 1)
    (hbank : bank ((st.questions.headD defaultQuestion).group - 1) = q' :: qs') :
    ∃ st', (firstStep bank st resp hintResp).state = .backward st' ∧
      st'.scoreR = 0 ∧ st'.scoreE = 0 ∧
      st'.scoreAll = st.scoreAll + (if classifyResponse resp = Judgment.pass then 1 else 0) ∧
      st'.scoreAllCurrent = st.scoreAllCurrent ∧
      st'.currentIndex = 0 ∧
      st'.questions = q' :: qs' ∧
      st'.group = (st.questions.headD defaultQuestion).group - 1 := by
  rcases hj with hj | hj
  · have hne : classifyResponse resp ≠ Judgment.pass := by simp [hj]
    rw [if_neg hne, Nat.add_zero] at hratio
    have h1 : ¬ (st.currentIndex + 1 < st.questions.length) := by omega
    have h2 : ¬ (st.scoreAll = st.questions.length) := by omega
    refine ⟨{ st with wrongQuestions := st.wrongQuestions ++ [q.number],
                      group := (st.questions.headD defaultQuestion).group - 1,
                      minAgeInGroup :=
                        getMinAgeForGroup ((st.questions.headD defaultQuestion).group - 1),
                      questions := q' :: qs', currentIndex := 0,
                      scoreR := 0, scoreE := 0 }, ?_, ?_, ?_, ?_, ?_, ?_, ?_, ?_⟩
    · have hg2 : 1 < (st.questions.head?.getD defaultQuestion).group := by
        simpa [List.headD_eq_head?_getD] using hgroup
      have hb2 : bank ((st.questions.head?.getD defaultQuestion).group - 1) = q' :: qs' := by
        simpa [List.headD_eq_head?_getD] using hbank
      simp [firstStep, hq, hj, scoreFail, firstComplete, h1, h2, hratio, hg2, hb2]
    all_goals simp [if_neg hne]
  · have hpos : classifyResponse resp = Judgment.pass := hj
    rw [if_pos hpos] at hratio
    have h1 : ¬ (st.currentIndex + 1 < st.questions.length) := by omega
    have h2 : ¬ (st.scoreAll + 1 = st.questions.length) := by omega
    refine ⟨{ st with rightQuestions := st.rightQuestions ++ [q.number],
                      scoreAll := st.scoreAll + 1,
                      group := (st.questions.headD defaultQuestion).group - 1,
                      minAgeInGroup :=
                        getMinAgeForGroup ((st.questions.headD defaultQuestion).group - 1),
                      questions := q' :: qs', currentIndex := 0,
                      scoreR := 0, scoreE := 0 }, ?_, ?_, ?_, ?_, ?_, ?_, ?_, ?_⟩
    · have hg2 : 1 < (st.questions.head?.getD defaultQuestion).group := by
        simpa [List.headD_eq_head?_getD] using hgroup
      have hb2 : bank ((st.questions.head?.getD defaultQuestion).group - 1) = q' :: qs' := by
        simpa [List.headD_eq_head?_getD] using hbank
      simp [firstStep, hq, hj, scoreFirstPass_eq, firstComplete, h1, h2, hratio, hg2, hb2]
    all_goals simp [if_pos hpos]

/-- Witness for the amended C2 at a concrete failing final answer. -/
theorem c2_backward_transition_witness :
    ∃ st', (firstStep sampleBank sampleFirstMid "不符合" "").state = .backward st' ∧
      st'.scoreR = 0 ∧ st'.scoreE = 0 := by
  obtain ⟨st', h1, h2, h3, _⟩ := c2_backward_transition sampleBank sampleFirstMid "不符合" ""
    (sQR 2 "3") (sQR 1 "1") [] (by decide) (by decide) (Or.inl (by decide)) (by decide)
    (by decide) (by decide)
  exact ⟨st', h1, h2, h3⟩

/-- C3 counterexample: a perfect group-1 first-group pass (score_all 1,
    score_r 1 earned) transitions to 順向施測 with score_all, score_r and
    score_e all reset to 0 - the first-group scores are NOT carried forward,
    contrary to the claim. -/
theorem c3_counterexample :
    (handleTesting sampleBank (.first sampleFirstG1) ⟨"可以", "符合", ""⟩).state =
      .forward sampleForwardEntry ∧
    (scoreFirstPass sampleFirstG1 (sQR 1 "1")).scoreAll = 1 ∧
    (scoreFirstPass sampleFirstG1 (sQR 1 "1")).scoreR = 1 ∧
    sampleForwardEntry.scoreAll = 0 ∧ sampleForwardEntry.scoreR = 0 ∧
    sampleForwardEntry.scoreE = 0 := by decide

/-- C3 amended: on the 首組→順向 transition (pass ratio 1, current group below
    9) the code zeroes ALL of score_all, score_r and score_e along with the
    cursor - only the ledgers survive; the first group's contribution enters
    the final composite later through the fixed offset
    get_group_all_score(original_group) at forward finalization, not through
    carried-forward counters.  (The per-group counter, untouched during 首組,
    stays as it was.) -/
theorem c3_forward_transition (bank : Int → List Question) (st : TestState)
    (resp hintResp : String) (q q' : Question) (qs' : List Question)
    (hq : st.questions[st.currentIndex]? = some q)
    (hdone : st.currentIndex + 1 = st.questions.length)
    (hj : classifyResponse resp = Judgment.pass)
    (hperfect : st.scoreAll + 1 = st.questions.length)
    (hgrp : (st.questions.headD defaultQuestion).group < 9)
    (hbank : bank ((st.questions.headD defaultQuestion).group + 1) = q' :: qs') :
    ∃ st', (firstStep bank st resp hintResp).state = .forward st' ∧
      st'.scoreAll = 0 ∧ st'.scoreR = 0 ∧ st'.scoreE = 0 ∧
      st'.currentIndex = 0 ∧ st'.scoreAllCurrent = st.scoreAllCurrent ∧
      st'.questions = q' :: qs' ∧
      st'.group = (st.questions.headD defaultQuestion).group + 1 ∧
      st'.rightQuestions = st.rightQuestions ++ [q.number] := by
  have h1 : ¬ (st.currentIndex + 1 < st.questions.length) := by omega
  refine ⟨{ st with rightQuestions := st.rightQuestions ++ [q.number],
                    scoreAll := 0,
                    group := (st.questions.headD defaultQuestion).group + 1,
                    minAgeInGroup :=
                      getMinAgeForGroup ((st.questions.headD defaultQuestion).group + 1),
                    questions := q' :: qs', currentIndex := 0,
                    scoreR := 0, scoreE := 0 }, ?_, ?_, ?_, ?_, ?_, ?_, ?_, ?_, ?_⟩
  · have hg2 : (st.questions.head?.getD defaultQuestion).group < 9 := by
      simpa [List.headD_eq_head?_getD] using hgrp
    have hb2 : bank ((st.questions.head?.getD defaultQuestion).group + 1) = q' :: qs' := by
      simpa [List.headD_eq_head?_getD] using hbank
    simp [firstStep, hq, hj, scoreFirstPass_eq, firstComplete, h1, hperfect, hg2, hb2]
  all_goals simp

/-- Witness for the amended C3 at a concrete perfect group-1 pass. -/
theorem c3_forward_transition_witness :
    ∃ st', (firstStep sampleBank sampleFirstG1 "符合" "").state = .forward st' ∧
      st'.scoreAll = 0 ∧ st'.scoreR = 0 ∧ st'.scoreE = 0 := by
  obtain ⟨st', h1, h2, h3, h4, _⟩ := c3_forward_transition sampleBank sampleFirstG1 "符合" ""
    (sQR 1 "1") (sQR 2 "2") [sQR 2 "3"] (by decide) (by decide) (by decide) (by decide)
    (by decide) (by decide)
  exact ⟨st', h1, h2, h3, h4⟩

/-- C1 counterexample: first group 2 is failed (1 of 2 passed), the backward
    walk passes the single group-1 item and stops at group 1.  The claim says
    the composite then equals the backward walk's own accumulated total (1,
    one backward pass, no offset below group 1); the code reports 2, because
    score_all also still contains the first group's 1 point. -/
theorem c1_counterexample :
    (runOutputs sampleBank (.first sampleFirst) sampleScript).map (·.finalScore) =
      [none, none, some 2] ∧
    backwardPassCount sampleBank (.first sampleFirst) sampleScript = 1 ∧
    ¬ ((2 : Int) = 1) := by decide

/-- C1 amended: whenever the backward walk terminates (perfect pass in the
    current easier group, or group 1 reached), the reported composite equals
    the fixed cumulative offset get_group_all_score for all groups strictly
    below the stopping group plus the session's running cumulative total
    score_all at termination - a total that comprises the first group's score
    as well as the backward walk's accumulation, since score_all is never
    reset on entering 逆向施測; when the walk stops at group 1 exactly, the
    composite is that running total alone, with no offset. -/
theorem c1_backward_composite (bank : Int → List Question) (st : TestState)
    (resp hintResp : String) (q : Question)
    (hq : st.questions[st.currentIndex]? = some q)
    (hdone : st.currentIndex + 1 = st.questions.length)
    (hj : classifyResponse resp = Judgment.fail ∨ classifyResponse resp = Judgment.pass)
    (hterm : ¬ (st.scoreAllCurrent + (if classifyResponse resp = Judgment.pass then 1 else 0) <
        st.questions.length ∧ (st.questions.headD defaultQuestion).group > 1)) :
    (backwardStep bank st resp hintResp).state = .mainMenu ∧
    (backwardStep bank st resp hintResp).finalScore =
      some (if (st.questions.headD defaultQuestion).group > 1 then
              getGroupAllScore ((st.questions.headD defaultQuestion).group - 1) +
                ((st.scoreAll + (if classifyResponse resp = Judgment.pass then 1 else 0) : Nat) : Int)
            else ((st.scoreAll + (if classifyResponse resp = Judgment.pass then 1 else 0) : Nat) : Int)) := by
  rcases hj with hj | hj
  · have hne : classifyResponse resp ≠ Judgment.pass := by simp [hj]
    rw [if_neg hne] at hterm
    simp only [if_neg hne, Nat.add_zero] at hterm ⊢
    have h1 : ¬ (st.currentIndex + 1 < st.questions.length) := by omega
    have hterm' : ¬ (st.scoreAllCurrent < st.questions.length ∧
        (st.questions.headD defaultQuestion).group > 1) := hterm
    have hterm2 : ¬ (st.scoreAllCurrent < st.questions.length ∧
        1 < (st.questions.head?.getD defaultQuestion).group) := by
      simpa [List.headD_eq_head?_getD] using hterm'
    by_cases hg : (st.questions.headD defaultQuestion).group > 1
    all_goals have hg2 := hg
    all_goals rw [List.headD_eq_head?_getD] at hg2
    · have hsc : ¬ (st.scoreAllCurrent < st.questions.length) := fun hc => hterm' ⟨hc, hg⟩
      simp [backwardStep, hq, hj, scoreFail, backwardComplete, h1, hsc, hg, hg2,
        List.headD_eq_head?_getD]
    · simp [backwardStep, hq, hj, scoreFail, backwardComplete, h1, hterm2, hg, hg2,
        List.headD_eq_head?_getD]
  · rw [if_pos hj] at hterm
    simp only [if_pos hj]
    have h1 : ¬ (st.currentIndex + 1 < st.questions.length) := by omega
    have hterm' : ¬ (st.scoreAllCurrent + 1 < st.questions.length ∧
        (st.questions.headD defaultQuestion).group > 1) := hterm
    have hterm2 : ¬ (st.scoreAllCurrent + 1 < st.questions.length ∧
        1 < (st.questions.head?.getD defaultQuestion).group) := by
      simpa [List.headD_eq_head?_getD] using hterm'
    by_cases hg : (st.questions.headD defaultQuestion).group > 1
    all_goals have hg2 := hg
    all_goals rw [List.headD_eq_head?_getD] at hg2
    · have hsc : ¬ (st.scoreAllCurrent + 1 < st.questions.length) := fun hc => hterm' ⟨hc, hg⟩
      simp [backwardStep, hq, hj, scoreLaterPass_eq, backwardComplete, h1, hsc, hg, hg2,
        List.headD_eq_head?_getD]
    · simp [backwardStep, hq, hj, scoreLaterPass_eq, backwardComplete, h1, hterm2, hg, hg2,
        List.headD_eq_head?_getD]

/-- Witness for the amended C1: backward walk stopping at group 1 after a
    pass; composite = running total 2 (first-group 1 + backward 1). -/
theorem c1_backward_composite_witness :
    (backwardStep sampleBank sampleBackwardG1 "符合" "").state = .mainMenu ∧
    (backwardStep sampleBank sampleBackwardG1 "符合" "").finalScore = some 2 := by
  obtain ⟨h1, h2⟩ := c1_backward_composite sampleBank sampleBackwardG1 "符合" "" (sQR 1 "1")
    (by decide) (by decide) (Or.inr (by decide)) (by decide)
  refine ⟨h1, ?_⟩
  rw [h2]; decide

/-- C6: the code does not signal an invalid date on a future birth date.
    With reference date 2026-10-12 and birth date 2030-01-01, calculate_age
    returns the negative month count -39; the age-collection handler compares
    -39 > 36 (false), proceeds into question selection at -39 months, finds no
    rows, emits the no-coverage message that blames the Google-Sheets
    configuration, and resets the caller to the main menu - it neither raises
    an InvalidDate signal nor re-prompts for a corrected date.  (A matched but
    calendar-invalid date such as 2021-02-30 even raises an uncaught
    ValueError, modelled by the crashed state of agingStep.) -/
theorem c6_future_birthdate_behavior :
    calculate_age ⟨2030, 1, 1⟩ ⟨2026, 10, 12⟩ = -39 ∧
    agingStep sampleSheetGood ⟨2026, 10, 12⟩ (.valid ⟨2030, 1, 1⟩) =
      (.mainMenu, [noQuestionsMsg]) ∧
    agingStep sampleSheetGood ⟨2026, 10, 12⟩ .invalidDate = (.crashed, []) := by decide

/-- C7 counterexample: a sheet holding a well-formed group-1 row whose window
    contains age 2 plus one malformed two-cell row.  The claim requires the
    malformed row to be skipped and the well-formed item returned; the code's
    loop raises IndexError on the short row, the function-level handler
    swallows it, and the whole lookup returns None. -/
theorem c7_counterexample :
    getQuestionsByAge sampleSheetBad 2 = none ∧
    specSkipLookup sampleSheetBad 2 = [sampleSheetItem] ∧
    getQuestionsByAge sampleSheetGood 2 = some [sampleSheetItem] := by decide

/-- A row with its seven consulted cells and a numeric group cell never makes
    the loop body raise. -/
theorem parseSheetRow_wf (months : Int) (row : List String) (h : wellFormedRow row) :
    ∃ o, parseSheetRow months row = .ok o := by
  obtain ⟨hlen, hint⟩ := h
  rcases row with _ | ⟨c0, row1⟩
  · simp at hlen
  rcases row1 with _ | ⟨c1, row2⟩
  · simp at hlen
  rcases row2 with _ | ⟨c2, row3⟩
  · simp at hlen
  rcases row3 with _ | ⟨c3, row4⟩
  · simp at hlen
  rcases row4 with _ | ⟨c4, row5⟩
  · simp at hlen
  rcases row5 with _ | ⟨c5, row6⟩
  · simp at hlen
  rcases row6 with _ | ⟨c6, row7⟩
  · simp at hlen
  obtain ⟨g, hg⟩ := Option.isSome_iff_exists.mp hint
  have hg0 : pyInt? c0 = some g := hg
  rcases hdr : digitRuns c1 with _ | ⟨a, rest1⟩
  · exact ⟨none, by simp [parseSheetRow, hg0, hdr]⟩
  rcases rest1 with _ | ⟨b, rest2⟩
  · exact ⟨none, by simp [parseSheetRow, hg0, hdr]⟩
  rcases rest2 with _ | ⟨c, rest3⟩
  · by_cases hab : a ≤ months ∧ months ≤ b
    · exact ⟨some ⟨g, c2, c3, c4, c5, c6⟩, by simp [parseSheetRow, hg0, hdr, hab]⟩
    · exact ⟨none, by simp [parseSheetRow, hg0, hdr, hab]⟩
  · exact ⟨none, by simp [parseSheetRow, hg0, hdr]⟩

/-- Over rows that never raise, the loop of get_questions_by_age collects the
    matching items in order, skipping the rest. -/
theorem collectRows_wf (months : Int) (rows : List (List String))
    (h : ∀ row ∈ rows, wellFormedRow row) :
    collectRows months rows = .ok (rows.filterMap (fun row =>
      match parseSheetRow months row with
      | .ok (some q) => some q
      | _ => none)) := by
  induction rows with
  | nil => rfl
  | cons row rest ih =>
      obtain ⟨o, ho⟩ := parseSheetRow_wf months row (h row (by simp))
      have ih' := ih (fun r hr => h r (by simp [hr]))
      cases o with
      | none => simp [collectRows, ho, ih', List.filterMap_cons]
      | some q => simp [collectRows, ho, ih', List.filterMap_cons]

/-- C7 amended: rows whose age-range cell does not contain exactly two
    embedded integers are skipped individually, and when every data row has at
    least the seven consulted cells and a numeric group cell, the lookup
    returns exactly the well-formed items whose windows contain the target
    age, in bank order (None when there are none).  A row with too few cells
    or a non-numeric group cell, however, raises inside the loop and makes the
    whole lookup return None (see the counterexample). -/
theorem c7_malformed_age_rows_skipped (sheet : List (List String)) (months : Int)
    (hwf : ∀ row ∈ sheet.tail, wellFormedRow row) :
    getQuestionsByAge sheet months =
      (if (specSkipLookup sheet months).isEmpty then none
       else some (specSkipLookup sheet months)) := by
  unfold getQuestionsByAge specSkipLookup
  rw [collectRows_wf months sheet.tail hwf]

/-- Witness for the amended C7 on the well-formed sample sheet. -/
theorem c7_malformed_age_rows_skipped_witness :
    (∀ row ∈ sampleSheetGood.tail, wellFormedRow row) ∧
    getQuestionsByAge sampleSheetGood 2 =
      (if (specSkipLookup sampleSheetGood 2).isEmpty then none
       else some (specSkipLookup sampleSheetGood 2)) := by
  refine ⟨?_, c7_malformed_age_rows_skipped sampleSheetGood 2 ?_⟩ <;>
    · intro row hr
      fin_cases hr
      exact ⟨by decide, by decide⟩

/-- The 首組 group-completion decision preserves the invariant whenever the
    post-answer score cannot exceed the group size (which rules out the
    reply-less fall-through of a pass ratio above 1). -/
theorem firstComplete_inv (bank : Int → List Question) (hb : goodBank bank)
    (st : TestState) (g : Int) (hle : st.scoreAll ≤ st.questions.length) :
    TestInv ((firstComplete bank st g).state) := by
  unfold firstComplete
  split_ifs with h1 h2 h3 h4
  · cases hbg : bank (g + 1) with
    | nil => exact absurd hbg (hb (g + 1))
    | cons q qs => simp [TestInv, IndexInRange, FirstScoreBound]
  · simp [TestInv, IndexInRange, FirstScoreBound]
  · cases hbg : bank (g - 1) with
    | nil => exact absurd hbg (hb (g - 1))
    | cons q qs => simp [TestInv, IndexInRange, FirstScoreBound]
  · simp [TestInv, IndexInRange, FirstScoreBound]
  · exfalso; omega

/-- The 順向 group-completion decision always preserves the invariant (an
    empty next group is caught by the truthiness check). -/
theorem forwardComplete_inv (bank : Int → List Question) (st : TestState) (g : Int) :
    TestInv ((forwardComplete bank st g).state) := by
  unfold forwardComplete
  split_ifs with h1
  · cases hbg : bank (g + 1) with
    | nil => simp [TestInv, IndexInRange, FirstScoreBound]
    | cons q qs => simp [TestInv, IndexInRange, FirstScoreBound]
  · simp [TestInv, IndexInRange, FirstScoreBound]

/-- The 逆向 group-completion decision always preserves the invariant. -/
theorem backwardComplete_inv (bank : Int → List Question) (st : TestState) (g : Int) :
    TestInv ((backwardComplete bank st g).state) := by
  unfold backwardComplete
  split_ifs with h1 h2
  · cases hbg : bank (g - 1) with
    | nil => simp [TestInv, IndexInRange, FirstScoreBound]
    | cons q qs => simp [TestInv, IndexInRange, FirstScoreBound]
  · simp [TestInv, IndexInRange, FirstScoreBound]
  · simp [TestInv, IndexInRange, FirstScoreBound]

/-- One handle_message invocation preserves the testing invariant, for any
    caregiver message and any classifier reply, provided every group the walk
    can request is nonempty. -/
theorem handleTesting_inv (bank : Int → List Question) (hb : goodBank bank)
    (s : UserState) (i : Inputs) (h : TestInv s) :
    TestInv ((handleTesting bank s i).state) := by
  by_cases hback : i.userMsg = "返回"
  · simp [handleTesting, hback, TestInv, IndexInRange, FirstScoreBound]
  cases s with
  | first st =>
      obtain ⟨hidx, hscore⟩ := h
      simp only [IndexInRange] at hidx
      simp only [FirstScoreBound] at hscore
      have hsome := List.getElem?_eq_getElem hidx
      simp only [handleTesting, if_neg hback, firstStep, hsome]
      cases hcr : classifyResponse i.classResp with
      | unclear => exact ⟨hidx, hscore⟩
      | unknown => exact ⟨hidx, hscore⟩
      | pass =>
          rw [scoreFirstPass_eq]
          dsimp only
          split
          · rename_i hlt'
            have hlt2 : st.currentIndex + 1 < st.questions.length := hlt'
            exact ⟨hlt2, show st.scoreAll + 1 ≤ st.currentIndex + 1 by omega⟩
          · rename_i hlt'
            exact firstComplete_inv bank hb _ _
              (show st.scoreAll + 1 ≤ st.questions.length by omega)
      | fail =>
          dsimp only [scoreFail]
          split
          · rename_i hlt'
            have hlt2 : st.currentIndex + 1 < st.questions.length := hlt'
            exact ⟨hlt2, show st.scoreAll ≤ st.currentIndex + 1 by omega⟩
          · rename_i hlt'
            exact firstComplete_inv bank hb _ _
              (show st.scoreAll ≤ st.questions.length by omega)
  | forward st =>
      obtain ⟨hidx, -⟩ := h
      simp only [IndexInRange] at hidx
      have hsome := List.getElem?_eq_getElem hidx
      simp only [handleTesting, if_neg hback, forwardStep, hsome]
      cases hcr : classifyResponse i.classResp with
      | unclear => exact ⟨hidx, trivial⟩
      | unknown => exact ⟨hidx, trivial⟩
      | pass =>
          rw [scoreLaterPass_eq]
          dsimp only
          split
          · rename_i hlt'
            exact ⟨show st.currentIndex + 1 < st.questions.length from hlt', trivial⟩
          · exact forwardComplete_inv bank _ _
      | fail =>
          dsimp only [scoreFail]
          split
          · rename_i hlt'
            exact ⟨show st.currentIndex + 1 < st.questions.length from hlt', trivial⟩
          · exact forwardComplete_inv bank _ _
  | backward st =>
      obtain ⟨hidx, -⟩ := h
      simp only [IndexInRange] at hidx
      have hsome := List.getElem?_eq_getElem hidx
      simp only [handleTesting, if_neg hback, backwardStep, hsome]
      cases hcr : classifyResponse i.classResp with
      | unclear => exact ⟨hidx, trivial⟩
      | unknown => exact ⟨hidx, trivial⟩
      | pass =>
          rw [scoreLaterPass_eq]
          dsimp only
          split
          · rename_i hlt'
            exact ⟨show st.currentIndex + 1 < st.questions.length from hlt', trivial⟩
          · exact backwardComplete_inv bank _ _
      | fail =>
          dsimp only [scoreFail]
          split
          · rename_i hlt'
            exact ⟨show st.currentIndex + 1 < st.questions.length from hlt', trivial⟩
          · exact backwardComplete_inv bank _ _
  | mainMenu => simp [handleTesting, if_neg hback, TestInv, IndexInRange, FirstScoreBound]
  | aging => simp [handleTesting, if_neg hback, TestInv, IndexInRange, FirstScoreBound]
  | tips => simp [handleTesting, if_neg hback, TestInv, IndexInRange, FirstScoreBound]
  | treatment => simp [handleTesting, if_neg hback, TestInv, IndexInRange, FirstScoreBound]
  | crashed => simp [handleTesting, if_neg hback, TestInv, IndexInRange, FirstScoreBound]

/-- A 首組篩檢 session built by the age-collection handler satisfies the
    invariant: cursor 0 on a nonempty question list, score 0. -/
theorem agingStep_entry (sheet : List (List String)) (today b : Date)
    (st0 : TestState) (msgs : List String)
    (hentry : agingStep sheet today (ParsedInput.valid b) = (.first st0, msgs)) :
    TestInv (.first st0) := by
  unfold agingStep at hentry
  dsimp only at hentry
  split_ifs at hentry with h36
  · simp at hentry
  · rcases hq : getQuestionsByAge sheet (calculate_age b today) with - | qs
    · rw [hq] at hentry; simp at hentry
    rcases qs with - | ⟨q, qs'⟩
    · rw [hq] at hentry; simp at hentry
    rw [hq] at hentry
    simp only [Prod.mk.injEq, UserState.first.injEq] at hentry
    obtain ⟨hst, -⟩ := hentry
    subst hst
    exact ⟨by simp [IndexInRange], by simp [FirstScoreBound]⟩

/-- C8: in every session state reachable from an age-collection entry into
    首組篩檢 (over a bank whose groups are all nonempty), the cursor of any
    testing phase stays strictly below len(questions), hence the item fetch
    questions[current_index] performed at the start of answer processing is
    always in range; current_index only reaches len(questions) transiently,
    inside a single invocation, where it triggers the group-transition
    decision. -/
theorem c8_index_invariant (bank : Int → List Question) (sheet : List (List String))
    (today b : Date) (st0 : TestState) (msgs : List String) (t : UserState)
    (hb : goodBank bank)
    (hentry : agingStep sheet today (ParsedInput.valid b) = (.first st0, msgs))
    (hreach : Reachable bank (.first st0) t) :
    IndexInRange t ∧
    ∀ st, (t = .first st ∨ t = .forward st ∨ t = .backward st) →
      st.questions[st.currentIndex]?.isSome := by
  have hstart : TestInv (.first st0) := agingStep_entry sheet today b st0 msgs hentry
  have hinv : TestInv t := by
    induction hreach with
    | refl => exact hstart
    | tail t' i hr ih => exact handleTesting_inv bank hb t' i ih
  refine ⟨hinv.1, ?_⟩
  rintro st (rfl | rfl | rfl)
  · have hidx : st.currentIndex < st.questions.length := hinv.1
    simp [List.getElem?_eq_getElem hidx]
  · have hidx : st.currentIndex < st.questions.length := hinv.1
    simp [List.getElem?_eq_getElem hidx]
  · have hidx : st.currentIndex < st.questions.length := hinv.1
    simp [List.getElem?_eq_getElem hidx]

/-- Witness for C8 at a concrete entry (one month of age on the sample sheet)
    and the entry state itself as the reachable state. -/
theorem c8_index_invariant_witness :
    goodBank sampleBank ∧
    agingStep sampleSheetGood ⟨2026, 10, 12⟩ (.valid ⟨2026, 9, 1⟩) =
      (.first sampleEntryState,
        [screeningIntroMsg 1, questionLabel ++ "題目一" ++ promptSuffix]) ∧
    IndexInRange (.first sampleEntryState) := by
  have hgood : goodBank sampleBank := by
    intro g
    unfold sampleBank
    split_ifs <;> simp
  have hentry : agingStep sampleSheetGood ⟨2026, 10, 12⟩ (.valid ⟨2026, 9, 1⟩) =
      (.first sampleEntryState,
        [screeningIntroMsg 1, questionLabel ++ "題目一" ++ promptSuffix]) := by decide
  exact ⟨hgood, hentry,
    (c8_index_invariant sampleBank sampleSheetGood ⟨2026, 10, 12⟩ ⟨2026, 9, 1⟩
      sampleEntryState _ (.first sampleEntryState) hgood hentry (Reachable.refl _)).1⟩

/-- Every Gregorian month has between 28 and 31 days. -/
theorem daysInMonth_bounds (y : Int) (m : Nat) (h1 : 1 ≤ m) (h2 : m ≤ 12) :
    28 ≤ daysInMonth y m ∧ daysInMonth y m ≤ 31 := by
  interval_cases m <;> simp only [daysInMonth] <;> (try split_ifs) <;> omega

/-- The month preceding a valid date also has between 28 and 31 days. -/
theorem prevMonthLen_bounds (t : Date) (h1 : 1 ≤ t.month) (h2 : t.month ≤ 12) :
    28 ≤ prevMonthLen t ∧ prevMonthLen t ≤ 31 := by
  unfold prevMonthLen
  split_ifs with hm
  · omega
  · exact daysInMonth_bounds t.year (t.month - 1) (by omega) (by omega)

/-- Closed form of calculate_age: the naive month difference, minus one for a
    day borrow, plus one when at least 30 days of the partial month have
    elapsed (the second, month-level borrow never changes the total since
    -12 months cancels +1 year). -/
theorem calculate_age_closed (b t : Date) :
    calculate_age b t =
      12 * (t.year - b.year) + ((t.month : Int) - (b.month : Int)) -
        (if (t.day : Int) - (b.day : Int) < 0 then 1 else 0) +
        (if 30 ≤ (t.day : Int) - (b.day : Int) +
            (if (t.day : Int) - (b.day : Int) < 0 then (prevMonthLen t : Int) else 0)
         then 1 else 0) := by
  simp only [calculate_age]
  split_ifs <;> omega

/-- C9: for every valid birth date not after the valid reference date with a
    computed age of at most 36 months, calculate_age is non-negative, and
    advancing the reference date by one calendar day never decreases it (the
    30-elapsed-days round-up never causes a decrease across a month
    boundary). -/
theorem c9_age_nonneg_monotone (b t : Date) (hb : b.Valid) (ht : t.Valid)
    (hle : dateLE b t) (_hbound : calculate_age b t ≤ 36) :
    0 ≤ calculate_age b t ∧ calculate_age b t ≤ calculate_age b (nextDay t) := by
  obtain ⟨hbm1, hbm2, hbd1, hbd2⟩ := hb
  obtain ⟨htm1, htm2, htd1, htd2⟩ := ht
  have hbdm := daysInMonth_bounds b.year b.month hbm1 hbm2
  have htdm := daysInMonth_bounds t.year t.month htm1 htm2
  have hpm := prevMonthLen_bounds t htm1 htm2
  constructor
  · rw [calculate_age_closed]
    rcases hle with hy | ⟨hy, hm | ⟨hm, hd⟩⟩ <;> split_ifs <;> omega
  · by_cases h1 : t.day < daysInMonth t.year t.month
    · have hnd : nextDay t = ⟨t.year, t.month, t.day + 1⟩ := by
        unfold nextDay; rw [if_pos h1]
      rw [calculate_age_closed, calculate_age_closed, hnd]
      have hpm2 : prevMonthLen ⟨t.year, t.month, t.day + 1⟩ = prevMonthLen t := rfl
      rw [hpm2]
      dsimp only
      split_ifs <;> omega
    · by_cases h2 : t.month < 12
      · have hnd : nextDay t = ⟨t.year, t.month + 1, 1⟩ := by
          unfold nextDay; rw [if_neg h1, if_pos h2]
        have hpm2 : prevMonthLen ⟨t.year, t.month + 1, 1⟩ = daysInMonth t.year t.month := by
          unfold prevMonthLen
          rw [if_neg (show ¬ (t.month + 1 = 1) by omega)]
          rfl
        rw [calculate_age_closed, calculate_age_closed, hnd, hpm2]
        dsimp only
        have hday : t.day = daysInMonth t.year t.month := by omega
        split_ifs <;> omega
      · have hm12 : t.month = 12 := by omega
        have hnd : nextDay t = ⟨t.year + 1, 1, 1⟩ := by
          unfold nextDay; rw [if_neg h1, if_neg h2]
        have hL : daysInMonth t.year t.month = 31 := by rw [hm12]; rfl
        have hpm2 : prevMonthLen ⟨t.year + 1, 1, 1⟩ = 31 := rfl
        rw [calculate_age_closed, calculate_age_closed, hnd, hpm2]
        dsimp only
        have hday : t.day = 31 := by omega
        have hm12i : (t.month : Int) = 12 := by omega
        split_ifs <;> omega

/-- Witness for C9 at concrete dates (one month of age, reference advancing
    from 2026-10-12 to 2026-10-13). -/
theorem c9_age_nonneg_monotone_witness :
    Date.Valid ⟨2026, 9, 1⟩ ∧ Date.Valid ⟨2026, 10, 12⟩ ∧
    dateLE ⟨2026, 9, 1⟩ ⟨2026, 10, 12⟩ ∧
    calculate_age ⟨2026, 9, 1⟩ ⟨2026, 10, 12⟩ ≤ 36 ∧
    0 ≤ calculate_age ⟨2026, 9, 1⟩ ⟨2026, 10, 12⟩ ∧
    calculate_age ⟨2026, 9, 1⟩ ⟨2026, 10, 12⟩ ≤
      calculate_age ⟨2026, 9, 1⟩ (nextDay ⟨2026, 10, 12⟩) := by
  have h1 : Date.Valid ⟨2026, 9, 1⟩ := by
    refine ⟨by decide, by decide, by decide, by decide⟩
  have h2 : Date.Valid ⟨2026, 10, 12⟩ := by
    refine ⟨by decide, by decide, by decide, by decide⟩
  have h3 : dateLE ⟨2026, 9, 1⟩ ⟨2026, 10, 12⟩ := by
    right; exact ⟨rfl, by left; decide⟩
  have h4 : calculate_age ⟨2026, 9, 1⟩ ⟨2026, 10, 12⟩ ≤ 36 := by decide
  obtain ⟨m1, m2⟩ := c9_age_nonneg_monotone ⟨2026, 9, 1⟩ ⟨2026, 10, 12⟩ h1 h2 h3 h4
  exact ⟨h1, h2, h3, h4, m1, m2⟩

end ScreeningBot
